/-
Verification of the aerospike-kubernetes-operator-ctl core logic.

Shallow embedding of the Go sources:
  * pkg/auth/auth.go           — RBAC reconciliation (Create / createOrUpdateBinding /
                                 mergeSubjects / Delete / deleteResource)
  * pkg/collectinfo/collectinfo_util.go
                               — collection pipeline (captureObject PVC/PV filtering,
                                 captureEvents, getInterval, captureContainerLogs,
                                 makeTarAndClean / compress)

The Kubernetes client is modelled as an explicit store of the objects the code
touches, with error injection for the call results the environment can produce.
-/
import Mathlib

namespace Akoctl

/-! ## Kind constants

The kind strings of the repository's `pkg/internal` constants package (its source
sits at the tail of src/pkg/collectinfo_test.go, after the test suite). -/

/-- `internal.ServiceAccountKind` (pkg/internal), the Kubernetes kind string of
a service account. -/
def ServiceAccountKind : String := "ServiceAccount"

/-- `internal.RoleBindingKind` (pkg/internal). -/
def RoleBindingKind : String := "RoleBinding"

/-- `internal.ClusterRoleBindingKind` (pkg/internal). -/
def ClusterRoleBindingKind : String := "ClusterRoleBinding"

/-- `internal.ClusterRoleKind` (pkg/internal). -/
def ClusterRoleKind : String := "ClusterRole"

/-- `auth.ServiceAccountName` from pkg/auth/auth.go. -/
def ServiceAccountName : String := "aerospike-operator-controller-manager"

/-- `auth.ClusterRoleName` from pkg/auth/auth.go. -/
def ClusterRoleName : String := "aerospike-cluster"

/-- `auth.ClusterRoleBindingName` from pkg/auth/auth.go. -/
def ClusterRoleBindingName : String := "aerospike-cluster"

/-- `auth.RoleBindingName` from pkg/auth/auth.go. -/
def RoleBindingName : String := "aerospike-cluster"

/-! ## RBAC data model (pkg/auth/auth.go)

A subject is the map with keys kind/name/namespace built in `Create`;
`reflect.DeepEqual` on those maps is structural equality of this record. -/

structure Subject where
  kind : String
  name : String
  ns : String
deriving DecidableEq, Repr

/-- The `roleRef` map built in `createOrUpdateBinding`. -/
structure RoleRef where
  apiGroup : String
  kind : String
  name : String
deriving DecidableEq, Repr

/-- The fixed role reference every binding is created with
(`roleRef` in `createOrUpdateBinding`). -/
def desiredRoleRef : RoleRef :=
  { apiGroup := "rbac.authorization.k8s.io", kind := ClusterRoleKind, name := ClusterRoleName }

/-- A stored RoleBinding / ClusterRoleBinding object: its role reference and
subject list (the only fields the code reads or writes). -/
structure BindingObj where
  roleRef : RoleRef
  subjects : List Subject
deriving DecidableEq, Repr

/-- Kubernetes API error classes distinguished by the code
(`errors.IsNotFound`, `errors.IsAlreadyExists`, `errors.IsBadRequest`), plus the
error classes the claims need to inject (`forbidden` as a representative of any
other API failure) and the `fmt.Errorf` roleRef-mismatch error returned by
`createOrUpdateBinding`. -/
inductive KErr where
  | notFound
  | alreadyExists
  | badRequest
  | forbidden
  | roleRefMismatch
deriving DecidableEq, Repr

/-- `errors.IsNotFound`. -/
def KErr.isNotFound : KErr → Bool
  | .notFound => true
  | _ => false

/-- `errors.IsAlreadyExists`. -/
def KErr.isAlreadyExists : KErr → Bool
  | .alreadyExists => true
  | _ => false

/-- `errors.IsBadRequest`. -/
def KErr.isBadRequest : KErr → Bool
  | .badRequest => true
  | _ => false

/-- `mergeSubjects` (pkg/auth/auth.go): appends to `baseSub` every entry of
`patchSub` that is not structurally equal to some entry of `baseSub`
(`newSubs` collection loop followed by the append). -/
def mergeSubjects (baseSub patchSub : List Subject) : List Subject :=
  baseSub ++ patchSub.filter (fun p => ¬ p ∈ baseSub)

/-- Result of one `createOrUpdateBinding` call: the returned error (`none` =
nil), the stored binding after the call, and whether `K8sClient.Update` was
invoked. -/
structure COUBResult where
  err : Option KErr
  store : Option BindingObj
  updateCalled : Bool
deriving DecidableEq, Repr

/-- The already-exists branch of `createOrUpdateBinding`: `Get` the current
object, fail on a differing roleRef, merge-and-update when the subject lists
differ, skip the update when they are equal.  The `Get` is modelled honestly
against the store (absent object yields a not-found error which is returned). -/
def handleExisting (store : Option BindingObj) (subjects : List Subject) : COUBResult :=
  match store with
  | none => { err := some .notFound, store := none, updateCalled := false }
  | some cur =>
    if cur.roleRef ≠ desiredRoleRef then
      { err := some .roleRefMismatch, store := some cur, updateCalled := false }
    else if cur.subjects ≠ subjects then
      { err := none
        store := some { cur with subjects := mergeSubjects cur.subjects subjects }
        updateCalled := true }
    else
      { err := none, store := some cur, updateCalled := false }

/-- `createOrUpdateBinding` (pkg/auth/auth.go).  `fault` injects the result of
the initial `K8sClient.Create` call (`none` = the honest store behaviour:
already-exists iff the binding is present, success otherwise).  Note the Go
code only handles `IsAlreadyExists(err)`; any other create error falls through
to the success log and `return nil`. -/
def createOrUpdateBinding (fault : Option KErr) (store : Option BindingObj)
    (subjects : List Subject) : COUBResult :=
  match fault with
  | some e =>
    if e.isAlreadyExists then handleExisting store subjects
    else { err := none, store := store, updateCalled := false }
  | none =>
    match store with
    | some cur => handleExisting (some cur) subjects
    | none =>
      { err := none
        store := some { roleRef := desiredRoleRef, subjects := subjects }
        updateCalled := false }

/-- The cluster objects `auth.Create` and `auth.Delete` touch: which namespaces
exist, which namespaces hold the operator service account, the per-namespace
role bindings, the cluster-role binding, and whether the cluster role object
exists. -/
structure RbacStore where
  existingNs : List String
  sas : List String
  nsBindings : List (String × BindingObj)
  clusterBinding : Option BindingObj
  clusterRole : Bool
deriving DecidableEq, Repr

/-- Result of `auth.Create`: returned error, resulting store, and whether any
`K8sClient.Update` call was issued during the run. -/
structure CreateResult where
  err : Option KErr
  store : RbacStore
  anyUpdate : Bool
deriving DecidableEq, Repr

/-- Update an association list entry. -/
def setAssoc (l : List (String × BindingObj)) (k : String) (v : BindingObj) :
    List (String × BindingObj) :=
  match l with
  | [] => [(k, v)]
  | (k', v') :: rest => if k' = k then (k, v) :: rest else (k', v') :: setAssoc rest k v

/-- Look up an association list entry. -/
def getAssoc (l : List (String × BindingObj)) (k : String) : Option BindingObj :=
  match l with
  | [] => none
  | (k', v') :: rest => if k' = k then some v' else getAssoc rest k

/-- The subject map built for namespace `ns` in `auth.Create`. -/
def subjectFor (ns : String) : Subject :=
  { kind := ServiceAccountKind, name := ServiceAccountName, ns := ns }

/-- The namespace loop of `auth.Create`: per namespace, create the service
account (a not-found error — the namespace does not exist — skips the
namespace); in namespace scope create-or-update the per-namespace role binding
(an error aborts the run); in cluster scope accumulate the subject.
Returns (error, store, accumulated subjects, any-update flag). -/
def createLoop (clusterScope : Bool) (store : RbacStore) (acc : List Subject)
    (anyUpdate : Bool) : List String → Option KErr × RbacStore × List Subject × Bool
  | [] => (none, store, acc, anyUpdate)
  | ns :: rest =>
    if ns ∈ store.existingNs then
      -- service-account create succeeded (or failed with already-exists,
      -- which is not a not-found error and is therefore ignored)
      let store := { store with sas := if ns ∈ store.sas then store.sas else ns :: store.sas }
      let sub := subjectFor ns
      if clusterScope then
        createLoop clusterScope store (acc ++ [sub]) anyUpdate rest
      else
        let r := createOrUpdateBinding none (getAssoc store.nsBindings ns) [sub]
        match r.err with
        | some e => (some e, store, acc, anyUpdate || r.updateCalled)
        | none =>
          let store :=
            match r.store with
            | some b => { store with nsBindings := setAssoc store.nsBindings ns b }
            | none => store
          createLoop clusterScope store acc (anyUpdate || r.updateCalled) rest
    else
      -- namespace not found: skip its RBAC resources
      createLoop clusterScope store acc anyUpdate rest

/-- `auth.Create` (pkg/auth/auth.go) against the honest store: the namespace
loop followed by the cluster-scope create-or-update of the cluster-role binding
when at least one subject was accumulated. -/
def authCreate (clusterScope : Bool) (namespaces : List String) (store : RbacStore) :
    CreateResult :=
  let (err, store', subjects, anyUpdate) := createLoop clusterScope store [] false namespaces
  match err with
  | some e => { err := some e, store := store', anyUpdate := anyUpdate }
  | none =>
    if ¬ clusterScope ∨ subjects = [] then
      { err := none, store := store', anyUpdate := anyUpdate }
    else
      let r := createOrUpdateBinding none store'.clusterBinding subjects
      { err := r.err
        store := { store' with clusterBinding := r.store.orElse (fun _ => store'.clusterBinding) }
        anyUpdate := anyUpdate || r.updateCalled }

/-- One issued delete call: the GroupVersionKind kind string and the object
name/namespace handed to `deleteResource`. -/
structure DeleteCall where
  kind : String
  name : String
  ns : String
deriving DecidableEq, Repr

/-- Result of `auth.Delete`: returned error, resulting store, and the delete
calls issued (in order). -/
structure DeleteResult where
  err : Option KErr
  store : RbacStore
  deletes : List DeleteCall
deriving DecidableEq, Repr

/-- The per-namespace part of `auth.Delete`: best-effort deletion of the
service account and, in namespace scope, of the role binding. -/
def deleteLoop (clusterScope : Bool) (store : RbacStore) (calls : List DeleteCall) :
    List String → RbacStore × List DeleteCall
  | [] => (store, calls)
  | ns :: rest =>
    let store := { store with sas := store.sas.filter (fun s => s ≠ ns) }
    let calls := calls ++ [{ kind := ServiceAccountKind, name := ServiceAccountName, ns := ns }]
    if clusterScope then
      deleteLoop clusterScope store calls rest
    else
      let store := { store with nsBindings := store.nsBindings.filter (fun p => p.1 ≠ ns) }
      let calls := calls ++ [{ kind := RoleBindingKind, name := RoleBindingName, ns := ns }]
      deleteLoop clusterScope store calls rest

/-- The subject-filter of `auth.Delete`: drop every subject that is the
operator service account in one of the target namespaces. -/
def filterSubjects (namespaces : List String) (subs : List Subject) : List Subject :=
  subs.filter (fun sub =>
    ¬ (sub.kind = ServiceAccountKind ∧ sub.name = ServiceAccountName ∧ sub.ns ∈ namespaces))

/-- `auth.Delete` (pkg/auth/auth.go): the namespace loop, then — in cluster
scope — fetch the cluster-role binding (any get error, including not-found, is
returned), filter its subjects, and either delete (the code passes the
`ClusterRoleKind` GVK with `ClusterRoleBindingName` to `deleteResource`), skip,
or update.  `deleteResource` is honest: it removes the named object when
present and merely logs otherwise. -/
def authDelete (clusterScope : Bool) (namespaces : List String) (store : RbacStore) :
    DeleteResult :=
  let (store, calls) := deleteLoop clusterScope store [] namespaces
  if ¬ clusterScope then
    { err := none, store := store, deletes := calls }
  else
    match store.clusterBinding with
    | none => { err := some .notFound, store := store, deletes := calls }
    | some crb =>
      let filtered := filterSubjects namespaces crb.subjects
      if filtered = [] then
        -- deleteResource(ClusterRoleKind, ClusterRoleBindingName): removes the
        -- cluster ROLE object named "aerospike-cluster"; the cluster-role
        -- binding itself is never deleted.
        { err := none
          store := { store with clusterRole := false }
          deletes := calls ++ [{ kind := ClusterRoleKind, name := ClusterRoleBindingName, ns := "" }] }
      else if filtered.length = crb.subjects.length then
        { err := none, store := store, deletes := calls }
      else
        { err := none
          store := { store with clusterBinding := some { crb with subjects := filtered } }
          deletes := calls }

/-! ## Collection pipeline data model (pkg/collectinfo/collectinfo_util.go) -/

/-- A persistent-volume claim as `captureObject` reads it: its name and the
optional `spec.volumeName` field (`nil` when the claim is unbound). -/
structure PVC where
  name : String
  volumeName : Option String
deriving DecidableEq, Repr

/-- A persistent volume: the only field the filter reads is the name. -/
structure PV where
  name : String
deriving DecidableEq, Repr

/-- `sets.Set[string].Insert`: membership-preserving insertion into the
`pvcNameSet`. -/
def insertName (s : List String) (v : String) : List String :=
  if v ∈ s then s else s ++ [v]

/-- The `PVCKind` arm of the `captureObject` switch: record each claim's bound
volume name into the linkage set (claims without a `volumeName` contribute
nothing). -/
def recordPVCVolumeNames (set : List String) (pvcs : List PVC) : List String :=
  pvcs.foldl (fun s pvc =>
    match pvc.volumeName with
    | some v => insertName s v
    | none => s) set

/-- The `PVKind` arm of the `captureObject` switch: a volume is serialized iff
`pvcNameSet.Has(name)`. -/
def capturePVItems (set : List String) (pvs : List PV) : List PV :=
  pvs.filter (fun pv => pv.name ∈ set)

/-- The linkage set accumulated by the namespace-scoped passes of one
`CollectInfo` run: the PVC capture of every target namespace feeds
`pvcNameSet`, which starts empty. -/
def runLinkageSet (nsPvcs : List (List PVC)) : List String :=
  nsPvcs.foldl recordPVCVolumeNames []

/-- The persistent volumes serialized by one `CollectInfo` run: the
cluster-scoped pass (run only when `clusterScope` is set, after every
namespace pass) filters the listed volumes through the accumulated linkage
set. -/
def runSerializedPVs (nsPvcs : List (List PVC)) (pvs : List PV) (clusterScope : Bool) :
    List PV :=
  if clusterScope then capturePVItems (runLinkageSet nsPvcs) pvs else []

/-! ## Events (captureEvents / getInterval / translate*TimestampSince)

Timestamps are modelled as `Nat` instants with `0` the zero value
(`metav1.Time.IsZero`), `now` the sampling instant and `now - ts` the
`time.Since` duration.  `duration.HumanDuration` of the k8s apimachinery
library is an external collaborator and enters as an explicit parameter
`hd : Nat → String`. -/

/-- `corev1.EventSeries`: repeat count and last observation time. -/
structure EventSeries where
  count : Int
  lastObservedTime : Nat
deriving DecidableEq, Repr

/-- A `corev1.Event` restricted to the fields `captureEvents`,
`appendOneEvent` and `getInterval` read. -/
structure KEvent where
  creationTimestamp : Nat
  eventTime : Nat
  firstTimestamp : Nat
  lastTimestamp : Nat
  count : Int
  series : Option EventSeries
  typeStr : String
  reason : String
  objKind : String
  objName : String
  message : String
deriving DecidableEq, Repr

/-- The literal rendered for a zero timestamp. -/
def unknownLit : String := "<unknown>"

/-- `translateMicroTimestampSince` (pkg/collectinfo/collectinfo_util.go). -/
def translateMicroTimestampSince (hd : Nat → String) (now ts : Nat) : String :=
  if ts = 0 then unknownLit else hd (now - ts)

/-- `translateTimestampSince` (pkg/collectinfo/collectinfo_util.go). -/
def translateTimestampSince (hd : Nat → String) (now ts : Nat) : String :=
  if ts = 0 then unknownLit else hd (now - ts)

/-- `getInterval` (pkg/collectinfo/collectinfo_util.go): the `switch` over
series / repeat count, with the `firstTimestampSince` fallback from the micro
`EventTime` to `FirstTimestamp`.  The `fmt.Sprintf` format
`%s (x%d over %s)` is rendered by concatenation. -/
def getInterval (hd : Nat → String) (now : Nat) (e : KEvent) : String :=
  let firstTimestampSince :=
    if e.eventTime = 0 then translateTimestampSince hd now e.firstTimestamp
    else translateMicroTimestampSince hd now e.eventTime
  match e.series with
  | some s =>
    translateMicroTimestampSince hd now s.lastObservedTime ++ " (x" ++ toString s.count ++
      " over " ++ firstTimestampSince ++ ")"
  | none =>
    if e.count > 1 then
      translateTimestampSince hd now e.lastTimestamp ++ " (x" ++ toString e.count ++
        " over " ++ firstTimestampSince ++ ")"
    else
      firstTimestampSince

/-- C7 claim-side definition, written from the spec sentence: series-based
interval when a series is carried, repeat-count interval when count exceeds
one, else the human-readable duration since first-seen; a zero timestamp
renders as the unknown literal. -/
def getIntervalSpec (hd : Nat → String) (now : Nat) (e : KEvent) : String :=
  let renderSince : Nat → String := fun ts => if ts = 0 then unknownLit else hd (now - ts)
  let firstSeen :=
    if e.eventTime = 0 then renderSince e.firstTimestamp else renderSince e.eventTime
  match e.series with
  | some s =>
    renderSince s.lastObservedTime ++ " (x" ++ toString s.count ++ " over " ++ firstSeen ++ ")"
  | none =>
    if e.count > 1 then
      renderSince e.lastTimestamp ++ " (x" ++ toString e.count ++ " over " ++ firstSeen ++ ")"
    else
      firstSeen

/-- The sort key relation of `captureEvents`: non-decreasing creation
timestamp.  `sort.SliceStable` with the strict `Before` comparator produces
exactly the stable sort with respect to this total preorder. -/
def eventLE (a b : KEvent) : Prop :=
  a.creationTimestamp ≤ b.creationTimestamp

instance : DecidableRel eventLE := fun a b => Nat.decLe _ _

instance : IsTotal KEvent eventLE := ⟨fun a b => Nat.le_total _ _⟩

instance : IsTrans KEvent eventLE := ⟨fun _ _ _ => Nat.le_trans⟩

/-- The `sort.SliceStable` call of `captureEvents`: the unique permutation
that is sorted by creation timestamp and keeps ties in discovery order,
realised as insertion sort by the non-strict key order. -/
def sortEventsStable (el : List KEvent) : List KEvent :=
  el.insertionSort eventLE

/-- The header line written first by `captureEvents`. -/
def eventsHeader : String :=
  "LAST SEEN\t\tTYPE\t\tREASON\t\t\tOBJECT\t\t\tMESSAGE\n"

/-- `appendOneEvent` (pkg/collectinfo/collectinfo_util.go): one tab-separated
line per event, message trimmed of surrounding whitespace. -/
def renderEventLine (hd : Nat → String) (now : Nat) (e : KEvent) : String :=
  getInterval hd now e ++ "\t\t\t" ++ e.typeStr ++ "\t\t" ++ e.reason ++ "\t\t\t" ++
    e.objKind ++ "/" ++ e.objName ++ "\t\t\t" ++ e.message.trim ++ "\n"

/-- The byte string `captureEvents` builds: the header, then one rendered line
per event of the sorted list, appended in order. -/
def captureEventsData (hd : Nat → String) (now : Nat) (el : List KEvent) : String :=
  (sortEventsStable el).foldl (fun d e => d ++ renderEventLine hd now e) eventsHeader

/-! ## Container logs (captureContainerLogs) -/

/-- The log level of the note emitted on a failed stream open. -/
inductive LogLevel where
  | debug
  | error
deriving DecidableEq, Repr

/-- Outcome of one `captureContainerLogs` call: returned error, the level of
the note logged for a failed stream open, and whether the log file was
written. -/
structure ContainerLogResult where
  err : Option KErr
  logged : Option LogLevel
  wroteFile : Bool
deriving DecidableEq, Repr

/-- `captureContainerLogs` (pkg/collectinfo/collectinfo_util.go).
`streamErr` is the result of `req.Stream`; `ioErr` injects a failure of the
subsequent copy/close/mkdir/write steps (those do propagate).  A failed stream
open is swallowed: a bad-request error while fetching previous logs is noted at
debug level, any other stream error at error level, and `nil` is returned
either way. -/
def captureContainerLogs (streamErr : Option KErr) (ioErr : Option KErr)
    (previous : Bool) : ContainerLogResult :=
  match streamErr with
  | some reqErr =>
    if reqErr.isBadRequest ∧ previous then
      { err := none, logged := some .debug, wroteFile := false }
    else
      { err := none, logged := some .error, wroteFile := false }
  | none =>
    match ioErr with
    | some e => { err := some e, logged := none, wroteFile := false }
    | none => { err := none, logged := none, wroteFile := true }

/-! ## Archive step (makeTarAndClean / compress) -/

/-- One node of the working tree as `filepath.Walk` enumerates it: its path
relative to the base directory (the walk of `Join(src, RootOutputDir)` yields
exactly these, prefixed by `src`), whether it is a directory, and the file
content. -/
structure FsEntry where
  relPath : String
  isDir : Bool
  data : String
deriving DecidableEq, Repr

/-- One entry of the produced tar stream: header name, directory flag, and the
copied content (directories carry no content). -/
structure TarEntry where
  name : String
  isDir : Bool
  data : String
deriving DecidableEq, Repr

/-- `filepath.Join` on clean components. -/
def joinPath (a b : String) : String :=
  if a = "" then b else a ++ "/" ++ b

/-- `strings.TrimPrefix`, on the character lists underlying the strings. -/
def trimPre (s pre : String) : String :=
  if pre.data.isPrefixOf s.data then String.mk (s.data.drop pre.data.length) else s

/-- `compress` (pkg/collectinfo/collectinfo_util.go): every walked node gets a
tar header named `TrimPrefix(file, src)`; file content is copied only for
non-directories. -/
def compress (src : String) (tree : List FsEntry) : List TarEntry :=
  tree.map (fun e =>
    { name := trimPre (joinPath src e.relPath) src
      isDir := e.isDir
      data := if e.isDir then "" else e.data })

/-- The on-disk state the archive step touches: the working tree (the walk of
`Join(src, RootOutputDir)`) and the produced archive file. -/
structure Disk where
  tree : List FsEntry
  tarFile : Option (List TarEntry)
deriving DecidableEq, Repr

/-- `makeTarAndClean` (pkg/collectinfo/collectinfo_util.go), success path:
compress the tree into the archive written alongside it, then
`os.RemoveAll(Join(pathToStore, RootOutputDir))` removes the uncompressed
tree. -/
def makeTarAndClean (src : String) (d : Disk) : Disk :=
  { tree := [], tarFile := some (compress src d.tree) }

/-- Set-insertion of a list of names (the service-account bookkeeping of
repeated `auth.Create` runs). -/
def insertAll (s l : List String) : List String :=
  l.foldl (fun s n => if n ∈ s then s else n :: s) s

/-- The role binding `auth.Create` establishes for a namespace in namespace
scope: the fixed role reference and the single service-account subject. -/
def canonBinding (ns : String) : BindingObj :=
  { roleRef := desiredRoleRef, subjects := [subjectFor ns] }

/-- Concatenation of a list of strings, used to describe the sequential
byte-appends of `captureEvents`. -/
def concatStrings (l : List String) : String :=
  l.foldr (fun a b => a ++ b) ""

/-! ## Theorems -/

/-- C7: the rendered last-seen interval is the series-based format when the
event carries a series, else the repeat-count format when the count exceeds
one, else the human-readable duration since the first-seen timestamp, with the
unknown literal substituted for any zero timestamp: the source `getInterval`
coincides with the claim-side rendering for every event. -/
theorem getInterval_eq_spec (hd : Nat → String) (now : Nat) (e : KEvent) :
    getInterval hd now e = getIntervalSpec hd now e := by
  rcases e with ⟨ct, et, ft, lt, c, ser, ty, re, k1, n1, m⟩
  cases ser <;> rfl

/-- C8: a failure to open the log stream never makes `captureContainerLogs`
return an error: a bad-request failure while fetching previous logs is noted
at debug level, any other stream-open failure at error level, and the call
returns success either way (regardless of how the remaining I/O would have
behaved). -/
theorem captureContainerLogs_swallows_streamErr (e : KErr) (ioErr : Option KErr)
    (previous : Bool) :
    captureContainerLogs (some e) ioErr previous =
      { err := none
        logged := some (if e.isBadRequest ∧ previous then LogLevel.debug else LogLevel.error)
        wroteFile := false } := by
  by_cases h : (e.isBadRequest = true ∧ previous = true)
  · simp [captureContainerLogs, h]
  · simp only [captureContainerLogs]
    rw [if_neg (by simpa using h), if_neg (by simpa using h)]

/-- Membership after a set insertion. -/
theorem mem_insertName (s : List String) (v w : String) :
    w ∈ insertName s v ↔ w ∈ s ∨ w = v := by
  unfold insertName
  split_ifs with h
  · constructor
    · exact Or.inl
    · rintro (h' | rfl) <;> [exact h'; exact h]
  · simp [List.mem_append]

/-- Membership in the linkage set after one namespace's PVC capture. -/
theorem mem_recordPVCVolumeNames (pvcs : List PVC) (s : List String) (v : String) :
    v ∈ recordPVCVolumeNames s pvcs ↔ v ∈ s ∨ ∃ pvc ∈ pvcs, pvc.volumeName = some v := by
  induction pvcs generalizing s with
  | nil => simp [recordPVCVolumeNames]
  | cons p rest ih =>
    rw [recordPVCVolumeNames, List.foldl_cons]
    cases hp : p.volumeName with
    | none =>
      rw [show (rest.foldl _ s) = recordPVCVolumeNames s rest from rfl, ih]
      simp only [List.mem_cons]
      constructor
      · rintro (h | ⟨pvc, hm, hv⟩) <;> [exact Or.inl h; exact Or.inr ⟨pvc, Or.inr hm, hv⟩]
      · rintro (h | ⟨pvc, hm | hm, hv⟩)
        · exact Or.inl h
        · subst hm; rw [hp] at hv; cases hv
        · exact Or.inr ⟨pvc, hm, hv⟩
    | some w =>
      rw [show (rest.foldl _ (insertName s w)) = recordPVCVolumeNames (insertName s w) rest
            from rfl, ih]
      simp only [mem_insertName, List.mem_cons]
      constructor
      · rintro ((h | rfl) | ⟨pvc, hm, hv⟩)
        · exact Or.inl h
        · exact Or.inr ⟨p, Or.inl rfl, hp⟩
        · exact Or.inr ⟨pvc, Or.inr hm, hv⟩
      · rintro (h | ⟨pvc, hm | hm, hv⟩)
        · exact Or.inl (Or.inl h)
        · subst hm; rw [hp] at hv; cases hv; exact Or.inl (Or.inr rfl)
        · exact Or.inr ⟨pvc, hm, hv⟩

/-- Membership in the linkage set accumulated over all namespace passes. -/
theorem mem_runLinkageSet (nsPvcs : List (List PVC)) (v : String) :
    v ∈ runLinkageSet nsPvcs ↔ ∃ pvcs ∈ nsPvcs, ∃ pvc ∈ pvcs, pvc.volumeName = some v := by
  have main : ∀ (ls : List (List PVC)) (s : List String),
      v ∈ ls.foldl recordPVCVolumeNames s ↔
        v ∈ s ∨ ∃ pvcs ∈ ls, ∃ pvc ∈ pvcs, pvc.volumeName = some v := by
    intro ls
    induction ls with
    | nil => simp
    | cons pvcs rest ih =>
      intro s
      rw [List.foldl_cons, ih, mem_recordPVCVolumeNames]
      simp only [List.mem_cons]
      constructor
      · rintro ((h | h) | ⟨ps, hm, hx⟩)
        · exact Or.inl h
        · exact Or.inr ⟨pvcs, Or.inl rfl, h⟩
        · exact Or.inr ⟨ps, Or.inr hm, hx⟩
      · rintro (h | ⟨ps, hm | hm, hx⟩)
        · exact Or.inl (Or.inl h)
        · subst hm; exact Or.inl (Or.inr hx)
        · exact Or.inr ⟨ps, hm, hx⟩
  rw [runLinkageSet, main]
  simp

/-- C3: a persistent volume is serialized by the run exactly when its name is
in the accumulated linkage set, i.e. exactly when some captured claim of the
run carried it as `spec.volumeName`; a volume whose name is not in the set is
excluded even with cluster scope enabled. -/
theorem pv_serialized_iff_linked (nsPvcs : List (List PVC)) (pvs : List PV) (pv : PV) :
    (pv ∈ runSerializedPVs nsPvcs pvs true ↔
       pv ∈ pvs ∧ pv.name ∈ runLinkageSet nsPvcs) ∧
    (pv.name ∈ runLinkageSet nsPvcs ↔
       ∃ pvcs ∈ nsPvcs, ∃ pvc ∈ pvcs, pvc.volumeName = some pv.name) := by
  refine ⟨?_, mem_runLinkageSet nsPvcs pv.name⟩
  simp [runSerializedPVs, capturePVItems, List.mem_filter]

/-- A character list is a Boolean prefix of itself followed by anything. -/
theorem isPrefixOf_append_self (l m : List Char) : l.isPrefixOf (l ++ m) = true := by
  induction l with
  | nil => simp [List.isPrefixOf]
  | cons a rest ih => simp [List.isPrefixOf, ih]

/-- `strings.TrimPrefix` removes an actual prefix exactly. -/
theorem trimPre_append (s t : String) : trimPre (s ++ t) s = t := by
  rw [trimPre, show (s ++ t).data = s.data ++ t.data from rfl,
    if_pos (isPrefixOf_append_self s.data t.data), List.drop_left]

/-- C9 (amended): every node of the working tree (directories included)
appears in the produced archive under the name `TrimPrefix(path, src)`
assigns: literally the node's path relative to the base directory for the
in-place invocation (`src = ""`, the configuration the repository tests), and
that relative path prefixed by a path separator for a non-empty cleaned base
path; the node's content is carried verbatim for files, and after the step the
uncompressed working tree no longer exists. -/
theorem makeTarAndClean_roundtrip (src : String) (d : Disk) :
    (∀ e ∈ d.tree, ∃ te ∈ compress src d.tree,
        te.name = trimPre (joinPath src e.relPath) src ∧ te.isDir = e.isDir ∧
          (e.isDir = false → te.data = e.data)) ∧
    (∀ e ∈ d.tree, src = "" → ∃ te ∈ compress src d.tree,
        te.name = e.relPath ∧ te.isDir = e.isDir ∧ (e.isDir = false → te.data = e.data)) ∧
    (∀ e ∈ d.tree, ¬ src = "" → ∃ te ∈ compress src d.tree,
        te.name = "/" ++ e.relPath ∧ te.isDir = e.isDir ∧
          (e.isDir = false → te.data = e.data)) ∧
    (makeTarAndClean src d).tarFile = some (compress src d.tree) ∧
    (makeTarAndClean src d).tree = [] := by
  have hmem : ∀ e ∈ d.tree,
      ({ name := trimPre (joinPath src e.relPath) src, isDir := e.isDir,
         data := if e.isDir then "" else e.data } : TarEntry) ∈ compress src d.tree := by
    intro e he
    exact List.mem_map_of_mem _ he
  refine ⟨?_, ?_, ?_, rfl, rfl⟩
  · intro e he
    exact ⟨_, hmem e he, rfl, rfl, fun h => by simp [h]⟩
  · intro e he hsrc
    subst hsrc
    refine ⟨_, hmem e he, ?_, rfl, fun h => by simp [h]⟩
    show trimPre (joinPath "" e.relPath) "" = e.relPath
    rw [joinPath, if_pos rfl]
    have h0 : ("".data : List Char) = [] := rfl
    rw [trimPre, if_pos (by rw [h0]; simp [List.isPrefixOf])]
    rw [h0]
    simp only [List.length_nil, List.drop_zero]
  · intro e he hsrc
    refine ⟨_, hmem e he, ?_, rfl, fun h => by simp [h]⟩
    show trimPre (joinPath src e.relPath) src = "/" ++ e.relPath
    rw [joinPath, if_neg hsrc, String.append_assoc, trimPre_append]

/-- C9 counterexample: with a non-empty cleaned base path the tar names carry
a leading path separator — the file is archived under
"/akoctl_collectinfo/summary.txt", and no entry bears the identical relative
path "akoctl_collectinfo/summary.txt" — so the claim as frozen fails outside
the in-place invocation. -/
theorem makeTarAndClean_relPath_counterexample :
    ((makeTarAndClean "/tmp/out"
        { tree := [{ relPath := "akoctl_collectinfo/summary.txt", isDir := false,
                     data := "s" }],
          tarFile := none }).tarFile =
      some [{ name := "/akoctl_collectinfo/summary.txt", isDir := false, data := "s" }]) ∧
    ¬ ∃ te ∈ compress "/tmp/out"
        [({ relPath := "akoctl_collectinfo/summary.txt", isDir := false,
            data := "s" } : FsEntry)],
      te.name = "akoctl_collectinfo/summary.txt" := by
  constructor <;> decide

/-- C9 witness: the round-trip theorem applied to a one-file working tree. -/
theorem makeTarAndClean_roundtrip_witness :
    ∃ te ∈ compress ""
        [({ relPath := "akoctl_collectinfo/summary/summary.txt",
            isDir := false, data := "total 3" } : FsEntry)],
      te.name = "akoctl_collectinfo/summary/summary.txt" ∧ te.isDir = false ∧
        (false = false → te.data = "total 3") := by
  exact (makeTarAndClean_roundtrip ""
      { tree := [{ relPath := "akoctl_collectinfo/summary/summary.txt",
                   isDir := false, data := "total 3" }], tarFile := none }).2.1
    { relPath := "akoctl_collectinfo/summary/summary.txt", isDir := false, data := "total 3" }
    (by simp) rfl

/-- C4: when the binding already exists and its stored role reference differs
from the desired one, `createOrUpdateBinding` returns the roleRef-mismatch
error, leaves the stored object untouched and issues no update call. -/
theorem createOrUpdateBinding_roleRefMismatch (fault : Option KErr) (cur : BindingObj)
    (subjects : List Subject)
    (hexist : fault = none ∨ fault = some KErr.alreadyExists)
    (hrr : cur.roleRef ≠ desiredRoleRef) :
    createOrUpdateBinding fault (some cur) subjects =
      { err := some KErr.roleRefMismatch, store := some cur, updateCalled := false } := by
  rcases hexist with h | h <;> subst h <;>
    simp [createOrUpdateBinding, handleExisting, KErr.isAlreadyExists, hrr]

/-- C4 witness: a binding stored with a different role name is rejected
unchanged. -/
theorem createOrUpdateBinding_roleRefMismatch_witness :
    createOrUpdateBinding none
        (some { roleRef := { apiGroup := "rbac.authorization.k8s.io", kind := "ClusterRole",
                             name := "another-role" }, subjects := [] }) [] =
      { err := some KErr.roleRefMismatch
        store := some { roleRef := { apiGroup := "rbac.authorization.k8s.io",
                                     kind := "ClusterRole", name := "another-role" },
                        subjects := [] }
        updateCalled := false } :=
  createOrUpdateBinding_roleRefMismatch none _ [] (Or.inl rfl) (by decide)

/-- C10: when the initial create call fails with any error other than
already-exists, `createOrUpdateBinding` neither returns nor retries it: the
call reports success, the store is untouched and no update is issued, so the
caller cannot distinguish the failure from a successful creation. -/
theorem createOrUpdateBinding_swallows_createError (e : KErr) (store : Option BindingObj)
    (subjects : List Subject) (h : ¬ e.isAlreadyExists = true) :
    createOrUpdateBinding (some e) store subjects =
      { err := none, store := store, updateCalled := false } := by
  simp [createOrUpdateBinding, h]

/-- C10 witness: a forbidden (permission) error on create is swallowed. -/
theorem createOrUpdateBinding_swallows_createError_witness :
    createOrUpdateBinding (some KErr.forbidden) none [subjectFor "ns1"] =
      { err := none, store := none, updateCalled := false } :=
  createOrUpdateBinding_swallows_createError KErr.forbidden none [subjectFor "ns1"] (by decide)

/-- The per-namespace delete loop never touches the cluster-role binding or
the cluster role. -/
theorem deleteLoop_preserves_cluster (clusterScope : Bool) (store : RbacStore)
    (calls : List DeleteCall) (l : List String) :
    (deleteLoop clusterScope store calls l).1.clusterBinding = store.clusterBinding ∧
    (deleteLoop clusterScope store calls l).1.clusterRole = store.clusterRole := by
  induction l generalizing store calls with
  | nil => exact ⟨rfl, rfl⟩
  | cons ns rest ih =>
    cases clusterScope <;> simpa [deleteLoop] using ih ..

/-- C5 counterexample: with the cluster-role binding absent, the cluster-scoped
delete returns the not-found error from the get — not success as the claim
states. -/
theorem authDelete_absentBinding_counterexample :
    (authDelete true ["ns1"]
        { existingNs := ["ns1"], sas := [], nsBindings := [], clusterBinding := none,
          clusterRole := true }).err = some KErr.notFound ∧
    ¬ (authDelete true ["ns1"]
        { existingNs := ["ns1"], sas := [], nsBindings := [], clusterBinding := none,
          clusterRole := true }).err = none := by
  constructor <;> decide

/-- C5 amended: when fetching the cluster-role binding fails with a not-found
error (the binding is absent), the cluster-scoped delete returns that error
rather than success. -/
theorem authDelete_absentBinding_returns_notFound (namespaces : List String)
    (store : RbacStore) (h : store.clusterBinding = none) :
    (authDelete true namespaces store).err = some KErr.notFound := by
  unfold authDelete
  rcases hloop : deleteLoop true store [] namespaces with ⟨store', calls'⟩
  have hres := (deleteLoop_preserves_cluster true store [] namespaces).1
  rw [hloop] at hres
  have hcb : store'.clusterBinding = none := hres.trans h
  simp [hcb]

/-- C5 amended witness: the not-found return at a concrete store. -/
theorem authDelete_absentBinding_returns_notFound_witness :
    (authDelete true ["ns1"]
        { existingNs := ["ns1"], sas := ["ns1"], nsBindings := [], clusterBinding := none,
          clusterRole := true }).err = some KErr.notFound :=
  authDelete_absentBinding_returns_notFound ["ns1"] _ rfl

/-- C1: evaluating the cluster-scoped delete at a store whose binding holds
only the target namespace's service account: the run reports success and
issues exactly one delete call in the cluster part — for the kind ClusterRole
under the binding's name — so the cluster role object is removed while the
cluster-role binding itself survives, contradicting both the claim and the
repository's own test, which expects the binding to be gone. -/
theorem authDelete_emptyFiltered_keeps_binding :
    (authDelete true ["ns1"]
        { existingNs := ["ns1"], sas := ["ns1"], nsBindings := [],
          clusterBinding := some { roleRef := desiredRoleRef, subjects := [subjectFor "ns1"] },
          clusterRole := true }) =
      { err := none
        store := { existingNs := ["ns1"], sas := [], nsBindings := [],
                   clusterBinding := some { roleRef := desiredRoleRef,
                                            subjects := [subjectFor "ns1"] },
                   clusterRole := false }
        deletes := [{ kind := ServiceAccountKind, name := ServiceAccountName, ns := "ns1" },
                    { kind := ClusterRoleKind, name := ClusterRoleBindingName, ns := "" }] } := by
  decide

/-- Inserting an event whose key equals `t` prepends it to the key-`t`
subsequence: every element it jumps over has a strictly smaller key. -/
theorem filter_orderedInsert_eq_key (t : Nat) (a : KEvent) (s : List KEvent)
    (ha : a.creationTimestamp = t) :
    (s.orderedInsert eventLE a).filter (fun e => decide (e.creationTimestamp = t)) =
      a :: s.filter (fun e => decide (e.creationTimestamp = t)) := by
  induction s with
  | nil => simp [List.orderedInsert, ha]
  | cons b rest ih =>
    rw [List.orderedInsert]
    by_cases h : eventLE a b
    · rw [if_pos h]
      simp [List.filter_cons, ha]
    · rw [if_neg h]
      have hb : ¬ b.creationTimestamp = t := by
        intro hbt
        exact h (show a.creationTimestamp ≤ b.creationTimestamp by rw [ha, hbt])
      simp [List.filter_cons, hb, ih]

/-- Inserting an event whose key differs from `t` leaves the key-`t`
subsequence unchanged. -/
theorem filter_orderedInsert_ne_key (t : Nat) (a : KEvent) (s : List KEvent)
    (ha : ¬ a.creationTimestamp = t) :
    (s.orderedInsert eventLE a).filter (fun e => decide (e.creationTimestamp = t)) =
      s.filter (fun e => decide (e.creationTimestamp = t)) := by
  induction s with
  | nil => simp [List.orderedInsert, ha]
  | cons b rest ih =>
    rw [List.orderedInsert]
    by_cases h : eventLE a b
    · rw [if_pos h]
      simp [List.filter_cons, ha]
    · rw [if_neg h]
      by_cases hb : b.creationTimestamp = t <;> simp [List.filter_cons, hb, ih]

/-- The event sort is stable: for every timestamp the subsequence of events
carrying it is preserved in discovery order. -/
theorem sortEventsStable_filter_stable (el : List KEvent) (t : Nat) :
    (sortEventsStable el).filter (fun e => decide (e.creationTimestamp = t)) =
      el.filter (fun e => decide (e.creationTimestamp = t)) := by
  induction el with
  | nil => rfl
  | cons a rest ih =>
    rw [sortEventsStable, List.insertionSort]
    by_cases ha : a.creationTimestamp = t
    · rw [filter_orderedInsert_eq_key t a _ ha,
        show List.insertionSort eventLE rest = sortEventsStable rest from rfl, ih]
      simp [List.filter_cons, ha]
    · rw [filter_orderedInsert_ne_key t a _ ha,
        show List.insertionSort eventLE rest = sortEventsStable rest from rfl, ih]
      simp [List.filter_cons, ha]

/-- C6: the events file is the header followed by one line per event, the
events appearing in non-decreasing creation-timestamp order, with equal-stamp
events kept in discovery order (the sort is stable). -/
theorem captureEvents_sorted_stable (hd : Nat → String) (now : Nat) (el : List KEvent) :
    captureEventsData hd now el =
      eventsHeader ++ concatStrings ((sortEventsStable el).map (renderEventLine hd now)) ∧
    List.Sorted eventLE (sortEventsStable el) ∧
    ∀ t : Nat,
      (sortEventsStable el).filter (fun e => decide (e.creationTimestamp = t)) =
        el.filter (fun e => decide (e.creationTimestamp = t)) := by
  refine ⟨?_, List.sorted_insertionSort eventLE el, fun t => sortEventsStable_filter_stable el t⟩
  have gen : ∀ (l : List KEvent) (d : String),
      l.foldl (fun d e => d ++ renderEventLine hd now e) d =
        d ++ concatStrings (l.map (renderEventLine hd now)) := by
    intro l
    induction l with
    | nil =>
      intro d
      simp [concatStrings, String.append_empty]
    | cons e rest ih =>
      intro d
      rw [List.foldl_cons, ih, List.map_cons]
      show d ++ renderEventLine hd now e ++ _ = _
      rw [String.append_assoc]
      rfl
  exact gen (sortEventsStable el) eventsHeader

/-- Looking up the key just stored. -/
theorem getAssoc_setAssoc_self (l : List (String × BindingObj)) (k : String) (v : BindingObj) :
    getAssoc (setAssoc l k v) k = some v := by
  induction l with
  | nil => simp [setAssoc, getAssoc]
  | cons p rest ih =>
    rcases p with ⟨k', v'⟩
    by_cases hk : k' = k
    · simp [setAssoc, getAssoc, hk]
    · simp [setAssoc, getAssoc, hk, ih]

/-- Storing under one key leaves other keys untouched. -/
theorem getAssoc_setAssoc_ne (l : List (String × BindingObj)) (k x : String) (v : BindingObj)
    (h : ¬ x = k) :
    getAssoc (setAssoc l k v) x = getAssoc l x := by
  have hk' : ¬ k = x := fun hh => h hh.symm
  induction l with
  | nil => simp [setAssoc, getAssoc, hk']
  | cons p rest ih =>
    rcases p with ⟨k', v'⟩
    by_cases hkk : k' = k
    · subst hkk
      simp [setAssoc, getAssoc, hk']
    · rw [setAssoc, if_neg hkk]
      by_cases hx : k' = x
      · simp [getAssoc, hx]
      · simp [getAssoc, hx, ih]

/-- Re-storing the value already present is a no-op on the list itself. -/
theorem setAssoc_eq_self (l : List (String × BindingObj)) (k : String) (v : BindingObj)
    (h : getAssoc l k = some v) : setAssoc l k v = l := by
  induction l with
  | nil => simp [getAssoc] at h
  | cons p rest ih =>
    rcases p with ⟨k', v'⟩
    by_cases hk : k' = k
    · subst hk
      rw [getAssoc, if_pos rfl] at h
      cases h
      simp [setAssoc]
    · rw [getAssoc, if_neg hk] at h
      simp [setAssoc, hk, ih h]

/-- One step of `insertAll`. -/
theorem insertAll_cons (s : List String) (n : String) (l : List String) :
    insertAll s (n :: l) = insertAll (if n ∈ s then s else n :: s) l := rfl

/-- `insertAll` never loses members of the base set. -/
theorem mem_insertAll_base (s l : List String) (n : String) (h : n ∈ s) :
    n ∈ insertAll s l := by
  induction l generalizing s with
  | nil => exact h
  | cons m rest ih =>
    rw [insertAll_cons]
    exact ih _ (by by_cases hm : m ∈ s <;> simp [hm, h])

/-- Every inserted name is a member afterwards. -/
theorem mem_insertAll_of_mem (s l : List String) (n : String) (h : n ∈ l) :
    n ∈ insertAll s l := by
  induction l generalizing s with
  | nil => cases h
  | cons m rest ih =>
    rw [insertAll_cons]
    rcases List.mem_cons.1 h with rfl | h'
    · apply mem_insertAll_base
      by_cases hm : n ∈ s <;> simp [hm]
    · exact ih _ h'

/-- Inserting names already present changes nothing. -/
theorem insertAll_eq_self (s l : List String) (h : ∀ n ∈ l, n ∈ s) :
    insertAll s l = s := by
  induction l with
  | nil => rfl
  | cons m rest ih =>
    rw [insertAll_cons, if_pos (h m (List.mem_cons_self m rest))]
    exact ih (fun n hn => h n (List.mem_cons_of_mem m hn))

/-- Full characterisation of the cluster-scope namespace loop of
`auth.Create`: it never fails, never updates, accumulates one subject per
existing namespace in order, records the service accounts, and touches nothing
else. -/
theorem createLoop_cluster_eq (l : List String) :
    ∀ (store : RbacStore) (acc : List Subject) (u : Bool),
    createLoop true store acc u l =
      (none,
       { store with
           sas := insertAll store.sas (l.filter (fun n => decide (n ∈ store.existingNs))) },
       acc ++ (l.filter (fun n => decide (n ∈ store.existingNs))).map subjectFor,
       u) := by
  induction l with
  | nil =>
    intro store acc u
    simp [createLoop, insertAll]
  | cons ns rest ih =>
    intro store acc u
    by_cases h : ns ∈ store.existingNs
    · rw [createLoop, if_pos h]
      simp only [if_pos rfl, ih, List.filter_cons, h, decide_True, if_true, insertAll_cons,
        List.map_cons, List.cons_append, List.append_assoc, List.singleton_append,
        List.nil_append]
    · rw [createLoop, if_neg h, ih]
      simp [List.filter_cons, h]

/-- Creating-or-updating the canonical per-namespace binding against a store
holding nothing or exactly that binding succeeds without an update call. -/
theorem createOrUpdateBinding_canon (ob : Option BindingObj) (ns : String)
    (h : ob = none ∨ ob = some (canonBinding ns)) :
    createOrUpdateBinding none ob [subjectFor ns] =
      { err := none, store := some (canonBinding ns), updateCalled := false } := by
  rcases h with rfl | rfl
  · rfl
  · simp [createOrUpdateBinding, handleExisting, canonBinding]

/-- First pass of the namespace-scope loop of `auth.Create`: starting from a
store whose per-namespace bindings are absent or canonical, the loop succeeds
without ever updating, establishes the canonical binding for every existing
target namespace, records the service accounts, and accumulates nothing. -/
theorem createLoop_ns_run (l : List String) :
    ∀ (store : RbacStore) (acc : List Subject) (u : Bool),
    (∀ ns, getAssoc store.nsBindings ns = none ∨
        getAssoc store.nsBindings ns = some (canonBinding ns)) →
    ∃ nb,
      createLoop false store acc u l =
        (none,
         { store with
             sas := insertAll store.sas (l.filter (fun n => decide (n ∈ store.existingNs))),
             nsBindings := nb },
         acc, u) ∧
      (∀ ns, getAssoc nb ns = none ∨ getAssoc nb ns = some (canonBinding ns)) ∧
      (∀ ns ∈ l, ns ∈ store.existingNs → getAssoc nb ns = some (canonBinding ns)) ∧
      (∀ x, getAssoc nb x = getAssoc store.nsBindings x ∨
          getAssoc nb x = some (canonBinding x)) := by
  induction l with
  | nil =>
    intro store acc u hwf
    exact ⟨store.nsBindings, by simp [createLoop, insertAll], hwf, by simp,
      fun x => Or.inl rfl⟩
  | cons ns rest ih =>
    intro store acc u hwf
    by_cases h : ns ∈ store.existingNs
    · have hred : createLoop false store acc u (ns :: rest) =
          createLoop false
            { store with
                sas := if ns ∈ store.sas then store.sas else ns :: store.sas,
                nsBindings := setAssoc store.nsBindings ns (canonBinding ns) }
            acc u rest := by
        rw [createLoop, if_pos h]
        simp only [Bool.false_eq_true, if_false,
          createOrUpdateBinding_canon _ ns (hwf ns), Bool.or_false]
      have hwf2 : ∀ x,
          getAssoc (setAssoc store.nsBindings ns (canonBinding ns)) x = none ∨
          getAssoc (setAssoc store.nsBindings ns (canonBinding ns)) x =
            some (canonBinding x) := by
        intro x
        by_cases hx : x = ns
        · subst hx
          exact Or.inr (getAssoc_setAssoc_self _ _ _)
        · rw [getAssoc_setAssoc_ne _ _ _ _ hx]
          exact hwf x
      obtain ⟨nb, heq, hwfnb, hmem, hpers⟩ :=
        ih { store with
               sas := if ns ∈ store.sas then store.sas else ns :: store.sas,
               nsBindings := setAssoc store.nsBindings ns (canonBinding ns) } acc u hwf2
      refine ⟨nb, ?_, hwfnb, ?_, ?_⟩
      · rw [hred, heq]
        simp [List.filter_cons, h, insertAll_cons]
      · intro x hx hex
        rcases List.mem_cons.1 hx with rfl | hx'
        · rcases hpers x with hp | hp
          · rw [hp, getAssoc_setAssoc_self]
          · exact hp
        · exact hmem x hx' hex
      · intro x
        rcases hpers x with hp | hp
        · by_cases hx : x = ns
          · subst hx
            rw [hp, getAssoc_setAssoc_self]
            exact Or.inr rfl
          · rw [hp, getAssoc_setAssoc_ne _ _ _ _ hx]
            exact Or.inl rfl
        · exact Or.inr hp
    · obtain ⟨nb, heq, hwfnb, hmem, hpers⟩ := ih store acc u hwf
      refine ⟨nb, ?_, hwfnb, ?_, hpers⟩
      · rw [createLoop, if_neg h, heq]
        simp [List.filter_cons, h]
      · intro x hx hex
        rcases List.mem_cons.1 hx with rfl | hx'
        · exact absurd hex h
        · exact hmem x hx' hex

/-- Second pass of the namespace-scope loop: when every existing target
namespace already has its service account and its canonical binding, the loop
is the identity — no error, no update, no store change. -/
theorem createLoop_ns_second (l : List String) :
    ∀ (store : RbacStore) (acc : List Subject) (u : Bool),
    (∀ ns ∈ l, ns ∈ store.existingNs →
        getAssoc store.nsBindings ns = some (canonBinding ns)) →
    (∀ ns ∈ l, ns ∈ store.existingNs → ns ∈ store.sas) →
    createLoop false store acc u l = (none, store, acc, u) := by
  induction l with
  | nil => intro store acc u _ _; rfl
  | cons ns rest ih =>
    intro store acc u h1 h2
    by_cases h : ns ∈ store.existingNs
    · have hsa := h2 ns (List.mem_cons_self ns rest) h
      have hb := h1 ns (List.mem_cons_self ns rest) h
      have hred : createLoop false store acc u (ns :: rest) =
          createLoop false store acc u rest := by
        rw [createLoop, if_pos h]
        simp only [Bool.false_eq_true, if_false, if_pos hsa, hb,
          createOrUpdateBinding_canon _ ns (Or.inr rfl), Bool.or_false,
          setAssoc_eq_self _ _ _ hb]
      rw [hred]
      exact ih store acc u (fun x hx hex => h1 x (List.mem_cons_of_mem ns hx) hex)
        (fun x hx hex => h2 x (List.mem_cons_of_mem ns hx) hex)
    · rw [createLoop, if_neg h]
      exact ih store acc u (fun x hx hex => h1 x (List.mem_cons_of_mem ns hx) hex)
        (fun x hx hex => h2 x (List.mem_cons_of_mem ns hx) hex)

/-- Rerunning the cluster-scope create with the same namespace list issues no
update call and leaves the store as the first run left it. -/
theorem authCreate_cluster_secondRun (l : List String) (store : RbacStore)
    (hcb : store.clusterBinding = none) :
    (authCreate true l (authCreate true l store).store).anyUpdate = false ∧
    (authCreate true l (authCreate true l store).store).store =
      (authCreate true l store).store := by
  have hsat : insertAll (insertAll store.sas
        (l.filter (fun n => decide (n ∈ store.existingNs))))
        (l.filter (fun n => decide (n ∈ store.existingNs))) =
      insertAll store.sas (l.filter (fun n => decide (n ∈ store.existingNs))) :=
    insertAll_eq_self _ _ (fun n hn => mem_insertAll_of_mem _ _ _ hn)
  by_cases hsub : (l.filter (fun n => decide (n ∈ store.existingNs))).map subjectFor = []
  · have h1 : authCreate true l store =
        { err := none
          store := { store with
              sas := insertAll store.sas (l.filter (fun n => decide (n ∈ store.existingNs))) }
          anyUpdate := false } := by
      unfold authCreate
      rw [createLoop_cluster_eq]
      simp [hsub]
    have h2 : authCreate true l
        { store with
            sas := insertAll store.sas (l.filter (fun n => decide (n ∈ store.existingNs))) } =
        { err := none
          store := { store with
              sas := insertAll store.sas (l.filter (fun n => decide (n ∈ store.existingNs))) }
          anyUpdate := false } := by
      unfold authCreate
      rw [createLoop_cluster_eq]
      simp [hsub, hsat]
    simp [h1, h2]
  · have h1 : authCreate true l store =
        { err := none
          store := { store with
              sas := insertAll store.sas (l.filter (fun n => decide (n ∈ store.existingNs)))
              clusterBinding := some
                { roleRef := desiredRoleRef
                  subjects := (l.filter (fun n => decide (n ∈ store.existingNs))).map
                    subjectFor } }
          anyUpdate := false } := by
      unfold authCreate
      rw [createLoop_cluster_eq]
      simp [hsub, hcb, createOrUpdateBinding, Option.orElse]
    have h2 : authCreate true l
        { store with
            sas := insertAll store.sas (l.filter (fun n => decide (n ∈ store.existingNs)))
            clusterBinding := some
              { roleRef := desiredRoleRef
                subjects := (l.filter (fun n => decide (n ∈ store.existingNs))).map
                  subjectFor } } =
        { err := none
          store := { store with
              sas := insertAll store.sas (l.filter (fun n => decide (n ∈ store.existingNs)))
              clusterBinding := some
                { roleRef := desiredRoleRef
                  subjects := (l.filter (fun n => decide (n ∈ store.existingNs))).map
                    subjectFor } }
          anyUpdate := false } := by
      unfold authCreate
      rw [createLoop_cluster_eq]
      simp [hsub, hsat, createOrUpdateBinding, handleExisting, Option.orElse]
    simp [h1, h2]

/-- Rerunning the namespace-scope create with the same namespace list issues
no update call and leaves the store as the first run left it. -/
theorem authCreate_ns_secondRun (l : List String) (store : RbacStore)
    (hnb : store.nsBindings = []) :
    (authCreate false l (authCreate false l store).store).anyUpdate = false ∧
    (authCreate false l (authCreate false l store).store).store =
      (authCreate false l store).store := by
  have hwf : ∀ ns, getAssoc store.nsBindings ns = none ∨
      getAssoc store.nsBindings ns = some (canonBinding ns) := by
    rw [hnb]
    intro ns
    exact Or.inl rfl
  obtain ⟨nb, heq, hwfnb, hmem, hpers⟩ := createLoop_ns_run l store [] false hwf
  have h1 : authCreate false l store =
      { err := none
        store := { store with
            sas := insertAll store.sas (l.filter (fun n => decide (n ∈ store.existingNs)))
            nsBindings := nb }
        anyUpdate := false } := by
    unfold authCreate
    rw [heq]
    simp
  have h2loop : createLoop false
      { store with
          sas := insertAll store.sas (l.filter (fun n => decide (n ∈ store.existingNs)))
          nsBindings := nb } [] false l =
      (none,
       { store with
           sas := insertAll store.sas (l.filter (fun n => decide (n ∈ store.existingNs)))
           nsBindings := nb }, [], false) :=
    createLoop_ns_second l _ [] false
      (fun ns hns hex => hmem ns hns hex)
      (fun ns hns hex =>
        mem_insertAll_of_mem _ _ _ (List.mem_filter.2 ⟨hns, by simpa using hex⟩))
  have h2 : authCreate false l
      { store with
          sas := insertAll store.sas (l.filter (fun n => decide (n ∈ store.existingNs)))
          nsBindings := nb } =
      { err := none
        store := { store with
            sas := insertAll store.sas (l.filter (fun n => decide (n ∈ store.existingNs)))
            nsBindings := nb }
        anyUpdate := false } := by
    unfold authCreate
    rw [h2loop]
    simp
  simp [h1, h2]

/-- C2 counterexample: an existing binding with subjects for two namespaces
and a desired list holding only the first — the add-only merge returns a list
equal to the existing one, yet the update call is still issued, because the
code compares the existing list to the desired list, not to the merge
result. -/
theorem mergeEqual_stillUpdates_counterexample :
    mergeSubjects [subjectFor "ns1", subjectFor "ns2"] [subjectFor "ns1"] =
      [subjectFor "ns1", subjectFor "ns2"] ∧
    (createOrUpdateBinding none
        (some { roleRef := desiredRoleRef
                subjects := [subjectFor "ns1", subjectFor "ns2"] })
        [subjectFor "ns1"]).updateCalled = true := by
  constructor <;> decide

/-- C2 (amended): the update call is skipped exactly when the existing
subject list is structurally equal to the desired one (not when the add-only
merge leaves the existing list unchanged); in particular rerunning the RBAC
create with the same namespace list (either scope, from a store without
pre-existing bindings) makes no subject-list change and issues no update call
on the second run. -/
theorem authCreate_idempotent_and_skip (clusterScope : Bool) (l : List String)
    (store : RbacStore) (hcb : store.clusterBinding = none) (hnb : store.nsBindings = []) :
    ((authCreate clusterScope l (authCreate clusterScope l store).store).anyUpdate = false ∧
     (authCreate clusterScope l (authCreate clusterScope l store).store).store =
       (authCreate clusterScope l store).store) ∧
    (∀ cur subjects, cur.roleRef = desiredRoleRef →
      ((createOrUpdateBinding none (some cur) subjects).updateCalled = false ↔
        cur.subjects = subjects)) := by
  constructor
  · cases clusterScope
    · exact authCreate_ns_secondRun l store hnb
    · exact authCreate_cluster_secondRun l store hcb
  · intro cur subjects hrr
    by_cases hs : cur.subjects = subjects <;>
      simp [createOrUpdateBinding, handleExisting, hrr, hs]

/-- C2 witness: the amended statement at a concrete fresh store and a
one-namespace list. -/
theorem authCreate_idempotent_and_skip_witness :
    ((authCreate true ["ns1"]
        (authCreate true ["ns1"]
          { existingNs := ["ns1"], sas := [], nsBindings := [], clusterBinding := none,
            clusterRole := true }).store).anyUpdate = false ∧
     (authCreate true ["ns1"]
        (authCreate true ["ns1"]
          { existingNs := ["ns1"], sas := [], nsBindings := [], clusterBinding := none,
            clusterRole := true }).store).store =
       (authCreate true ["ns1"]
          { existingNs := ["ns1"], sas := [], nsBindings := [], clusterBinding := none,
            clusterRole := true }).store) ∧
    (∀ cur subjects, cur.roleRef = desiredRoleRef →
      ((createOrUpdateBinding none (some cur) subjects).updateCalled = false ↔
        cur.subjects = subjects)) :=
  authCreate_idempotent_and_skip true ["ns1"]
    { existingNs := ["ns1"], sas := [], nsBindings := [], clusterBinding := none,
      clusterRole := true } rfl rfl

end Akoctl
